import Mathlib

/-!
# Galaxian (`src/main.c`): a shallow embedding of the game simulation

The embedding follows `src/main.c` function by function.  Conventions:

* C `int` variables are `Int`; flags (`alive`, `active`, `g_game_over`) keep
  their C encoding (`0` is false, anything else is true).
* `Alien g_aliens[ALIEN_ROWS][ALIEN_COLS]` is the list of its slots in memory
  (row-major) order: `g_aliens[r][c]` is entry `r * ALIEN_COLS + c`.  Every
  `for r ... for c ...` loop of the source visits the slots in exactly this
  order.  `Bullet g_player_bullets[MAX_PLAYER_BULLETS]` is the list of its slots.
* The `float` fields `x`, `y`, `formation_x`, `formation_y` only ever hold
  integer values, except the `x` of a diving alien.  `formation_x`,
  `formation_y` are set from `int` expressions, `y` changes by `+= 3` or is
  reset to `formation_y`, and a formation alien has
  `x = formation_x + g_formation_x`.  They are modelled as `Int`.  The source
  reads `x` only through `(int)x`; for a diving alien the model stores that
  truncated value, supplied by the function `dive_x` (see `move_alien`),
  because `sinf` comes from the C library.
* `dive_timer` is reset to `0` and advanced by `+= 0.03f`; the model stores the
  number of increments since the last reset.
* `rand()`, `SDL_GetTicks()`, the keyboard state and the quit event are
  inputs of the functions that read them.  Sounds, drawing calls and
  `SDL_Delay` do not change the simulated state and are left out.
-/

namespace Galaxian

/-! ## Constants -/

def SCREEN_WIDTH : Int := 600

def SCREEN_HEIGHT : Int := 700

def ALIEN_COLS : Nat := 10

def ALIEN_ROWS : Nat := 5

def SPRITE_SIZE : Int := 32

def PLAYER_SPEED : Int := 5

def BULLET_SPEED : Int := 10

def MAX_PLAYER_BULLETS : Nat := 2

/-! ## Data model -/

inductive AlienState where
  | S_FORMATION
  | S_DIVING
  deriving DecidableEq, Repr

structure SDL_Rect where
  x : Int
  y : Int
  w : Int
  h : Int
  deriving DecidableEq, Repr

structure Alien where
  x : Int
  y : Int
  formation_x : Int
  formation_y : Int
  alive : Int
  type : Int
  anim_frame : Int
  state : AlienState
  dive_timer : Nat
  deriving DecidableEq, Repr

structure Player where
  rect : SDL_Rect
  deriving DecidableEq, Repr

structure Bullet where
  rect : SDL_Rect
  active : Int
  deriving DecidableEq, Repr

/-- The global variables of `main.c` that the simulation reads or writes,
together with the two function-local statics `anim_timer` (of `update_game`)
and `last_shot` (of `handle_input`). -/
structure GameState where
  g_player : Player
  g_aliens : List Alien
  g_player_bullets : List Bullet
  g_formation_x : Int
  g_formation_direction : Int
  g_dive_timer : Int
  g_score : Int
  g_lives : Int
  g_game_over : Int
  anim_timer : Int
  last_shot : Nat
  deriving DecidableEq, Repr

/-- What `handle_input` reads from the platform in one call: whether an
`SDL_QUIT` event is pending, the three keys, and the values returned by its
two calls of `SDL_GetTicks()` (the test and the store). -/
structure Input where
  quit : Bool
  left : Bool
  right : Bool
  space : Bool
  ticks : Nat
  ticks_store : Nat
  deriving DecidableEq, Repr

/-! ## Library functions used by the source -/

/-- C `abs` on `int`. -/
def c_abs (v : Int) : Int := if v < 0 then -v else v

/-- SDL2 `SDL_RectEmpty`: a rectangle with no area. -/
def SDL_RectEmpty (r : SDL_Rect) : Bool := decide (r.w ≤ 0) || decide (r.h ≤ 0)

/-- SDL2 `SDL_HasIntersection` (a function of the SDL library, called by
`update_game`): empty rectangles intersect nothing; otherwise the half-open
spans `[x, x + w)` and `[y, y + h)` must both overlap. -/
def SDL_HasIntersection (A B : SDL_Rect) : Bool :=
  if SDL_RectEmpty A || SDL_RectEmpty B then false
  else
    let Amin := if B.x > A.x then B.x else A.x
    let Amax := if B.x + B.w < A.x + A.w then B.x + B.w else A.x + A.w
    if Amax ≤ Amin then false
    else
      let Amin := if B.y > A.y then B.y else A.y
      let Amax := if B.y + B.h < A.y + A.h then B.y + B.h else A.y + A.h
      if Amax ≤ Amin then false else true

/-- Unsigned 32-bit subtraction, as in `SDL_GetTicks() - last_shot` on `Uint32`. -/
def u32_sub (a b : Nat) : Nat := (a % 2 ^ 32 + 2 ^ 32 - b % 2 ^ 32) % 2 ^ 32

/-! ## `setup_level` -/

/-- The rectangle `{(int)a.x, (int)a.y, SPRITE_SIZE, SPRITE_SIZE}` built from an
alien in `update_game` and in `render_game`. -/
def alien_rect (a : Alien) : SDL_Rect := ⟨a.x, a.y, SPRITE_SIZE, SPRITE_SIZE⟩

/-- A zero-initialised `Alien`, as in a C global. -/
def zero_alien : Alien :=
  { x := 0, y := 0, formation_x := 0, formation_y := 0, alive := 0, type := 0,
    anim_frame := 0, state := AlienState.S_FORMATION, dive_timer := 0 }

/-- The globals as the C initialisers leave them before `main` runs. -/
def globals_init : GameState :=
  { g_player := ⟨⟨0, 0, 0, 0⟩⟩
    g_aliens := List.replicate (ALIEN_ROWS * ALIEN_COLS) zero_alien
    g_player_bullets := List.replicate MAX_PLAYER_BULLETS ⟨⟨0, 0, 0, 0⟩, 0⟩
    g_formation_x := 0
    g_formation_direction := 1
    g_dive_timer := 0
    g_score := 0
    g_lives := 3
    g_game_over := 0
    anim_timer := 0
    last_shot := 0 }

/-- Body of the double loop of `setup_level` for slot `[r][c]`. -/
def setup_alien (r c : Nat) (a : Alien) : Alien :=
  { a with
    formation_x := (c : Int) * 45 + 75
    formation_y := (r : Int) * 40 + 60
    x := (c : Int) * 45 + 75
    y := (r : Int) * 40 + 60
    alive := 1
    anim_frame := 0
    state := AlienState.S_FORMATION
    type := if r < 2 then 2 else if r < 4 then 1 else 0 }

def setup_level (s : GameState) : GameState :=
  { s with
    g_player := ⟨⟨SCREEN_WIDTH / 2 - SPRITE_SIZE / 2, SCREEN_HEIGHT - 60, SPRITE_SIZE, SPRITE_SIZE⟩⟩
    g_aliens := (List.range (ALIEN_ROWS * ALIEN_COLS)).map fun i =>
      setup_alien (i / ALIEN_COLS) (i % ALIEN_COLS) (s.g_aliens.getD i zero_alien)
    g_player_bullets := s.g_player_bullets.map fun b => { b with active := 0 } }

/-- The state in which `main` enters its loop. -/
def level_start : GameState := setup_level globals_init

/-! ## `fire_bullet` and `handle_input` -/

/-- The loop of `fire_bullet`: the first slot with `active == 0` is overwritten
and the function returns; a full pool is left as it is. -/
def fire_bullet_slots (p : Player) : List Bullet → List Bullet
  | [] => []
  | b :: bs =>
    if b.active = 0 then
      { rect := ⟨p.rect.x + SPRITE_SIZE / 2 - 2, p.rect.y, 4, 12⟩, active := 1 } :: bs
    else b :: fire_bullet_slots p bs

def fire_bullet (s : GameState) : GameState :=
  { s with g_player_bullets := fire_bullet_slots s.g_player s.g_player_bullets }

/-- Left and right movement of `handle_input`, in source order. -/
def move_player (inp : Input) (p : Player) : Player :=
  let p1 : Player :=
    if inp.left = true ∧ p.rect.x > 0 then ⟨{ p.rect with x := p.rect.x - PLAYER_SPEED }⟩ else p
  if inp.right = true ∧ p1.rect.x < SCREEN_WIDTH - p1.rect.w then
    ⟨{ p1.rect with x := p1.rect.x + PLAYER_SPEED }⟩
  else p1

/-- One call `handle_input(&is_running)`: returns the new `is_running` and state. -/
def handle_input (inp : Input) (is_running : Int) (s : GameState) : Int × GameState :=
  let run := if inp.quit then 0 else is_running
  let s1 : GameState := { s with g_player := move_player inp s.g_player }
  if inp.space then
    if u32_sub inp.ticks s1.last_shot > 300 then
      (run, { fire_bullet s1 with last_shot := inp.ticks_store % 2 ^ 32 })
    else (run, s1)
  else (run, s1)

/-! ## `update_game` -/

/-- The inner `for r, c` loop of the bullet pass for one bullet rectangle:
threads the bullet's `active` flag and `g_score` through the alien slots. -/
def bullet_vs_aliens (rect : SDL_Rect) : List Alien → Int → Int → List Alien × Int × Int
  | [], active, score => ([], active, score)
  | a :: rest, active, score =>
    if a.alive ≠ 0 ∧ SDL_HasIntersection rect (alien_rect a) = true then
      let r := bullet_vs_aliens rect rest 0 (score + (a.type + 1) * 50)
      ({ a with alive := 0 } :: r.1, r.2.1, r.2.2)
    else
      let r := bullet_vs_aliens rect rest active score
      (a :: r.1, r.2.1, r.2.2)

/-- The rectangle of a bullet after `rect.y -= BULLET_SPEED`. -/
def moved_rect (b : Bullet) : SDL_Rect := { b.rect with y := b.rect.y - BULLET_SPEED }

/-- The outer loop of the bullet pass: threads the aliens and `g_score`. -/
def update_bullets : List Bullet → List Alien → Int → List Bullet × List Alien × Int
  | [], aliens, score => ([], aliens, score)
  | b :: bs, aliens, score =>
    if b.active ≠ 0 then
      let rect := moved_rect b
      let active := if rect.y < 0 then 0 else b.active
      let r := bullet_vs_aliens rect aliens active score
      let t := update_bullets bs r.1 r.2.2
      ({ rect := rect, active := r.2.1 } :: t.1, t.2.1, t.2.2)
    else
      let t := update_bullets bs aliens score
      (b :: t.1, t.2.1, t.2.2)

/-- Phase 1 of `update_game`: player bullets and their collisions. -/
def bullets_phase (s : GameState) : GameState :=
  let r := update_bullets s.g_player_bullets s.g_aliens s.g_score
  { s with g_player_bullets := r.1, g_aliens := r.2.1, g_score := r.2.2 }

/-- Phase 2: the animation timer (`static int anim_timer`). -/
def anim_phase (s : GameState) : GameState :=
  if s.anim_timer + 1 > 30 then
    { s with
      anim_timer := 0
      g_aliens := s.g_aliens.map fun a => { a with anim_frame := 1 - a.anim_frame } }
  else { s with anim_timer := s.anim_timer + 1 }

/-- Phase 3: `g_formation_x += g_formation_direction;` and the flip. -/
def formation_phase (s : GameState) : GameState :=
  let fx := s.g_formation_x + s.g_formation_direction
  { s with
    g_formation_x := fx
    g_formation_direction :=
      if c_abs fx > 30 then s.g_formation_direction * -1 else s.g_formation_direction }

/-- Phase 4: the dive trigger.  `rand_r` and `rand_c` are the values the two
calls of `rand()` return when the trigger fires. -/
def dive_phase (rand_r rand_c : Nat) (s : GameState) : GameState :=
  if s.g_dive_timer + 1 > 100 then
    let i := (rand_r % ALIEN_ROWS) * ALIEN_COLS + rand_c % ALIEN_COLS
    match s.g_aliens[i]? with
    | some a =>
      if a.alive ≠ 0 ∧ a.state = AlienState.S_FORMATION then
        { s with
          g_dive_timer := 0
          g_aliens := s.g_aliens.set i { a with state := AlienState.S_DIVING, dive_timer := 0 } }
      else { s with g_dive_timer := 0 }
    | none => { s with g_dive_timer := 0 }
  else { s with g_dive_timer := s.g_dive_timer + 1 }

/-- Motion of one living alien in the last loop of `update_game`.
`dive_x fx t` stands for `(int)(fx + sinf(T) * 100)`, where `T` is the `float`
reached from `0` by `t` additions of `0.03f`. -/
def move_alien (dive_x : Int → Nat → Int) (gfx : Int) (a : Alien) : Alien :=
  if a.state = AlienState.S_FORMATION then { a with x := a.formation_x + gfx }
  else
    let a1 : Alien :=
      { a with
        dive_timer := a.dive_timer + 1
        x := dive_x a.formation_x (a.dive_timer + 1)
        y := a.y + 3 }
    if a1.y > SCREEN_HEIGHT then
      { a1 with y := a1.formation_y, state := AlienState.S_FORMATION }
    else a1

/-- What the last loop of `update_game` threads besides the aliens. -/
structure PassState where
  player : Player
  lives : Int
  game_over : Int
  deriving DecidableEq, Repr

/-- Body of the last `for r, c` loop of `update_game` for one slot: motion of a
living alien and its collision with the player. -/
def alien_step (dive_x : Int → Nat → Int) (gfx : Int) (a : Alien) (st : PassState) :
    Alien × PassState :=
  if a.alive ≠ 0 then
    let a1 := move_alien dive_x gfx a
    if SDL_HasIntersection st.player.rect (alien_rect a1) = true then
      if st.lives - 1 ≤ 0 then (a1, { st with lives := st.lives - 1, game_over := 1 })
      else
        ({ a1 with alive := 0 },
         { st with
           lives := st.lives - 1
           player := ⟨{ st.player.rect with x := SCREEN_WIDTH / 2 - SPRITE_SIZE / 2 }⟩ })
    else (a1, st)
  else (a, st)

/-- The last `for r, c` loop of `update_game`, slot after slot. -/
def update_aliens (dive_x : Int → Nat → Int) (gfx : Int) :
    List Alien → PassState → List Alien × PassState
  | [], st => ([], st)
  | a :: rest, st =>
    let r := alien_step dive_x gfx a st
    let t := update_aliens dive_x gfx rest r.2
    (r.1 :: t.1, t.2)

/-- Phase 5: the alien pass. -/
def aliens_phase (dive_x : Int → Nat → Int) (s : GameState) : GameState :=
  let r := update_aliens dive_x s.g_formation_x s.g_aliens ⟨s.g_player, s.g_lives, s.g_game_over⟩
  { s with
    g_aliens := r.1
    g_player := r.2.player
    g_lives := r.2.lives
    g_game_over := r.2.game_over }

/-- The state in which the last loop of `update_game` starts. -/
def before_aliens (rand_r rand_c : Nat) (s : GameState) : GameState :=
  dive_phase rand_r rand_c (formation_phase (anim_phase (bullets_phase s)))

/-- One call of `update_game()`. -/
def update_game (dive_x : Int → Nat → Int) (rand_r rand_c : Nat) (s : GameState) : GameState :=
  aliens_phase dive_x (before_aliens rand_r rand_c s)

/-- The state after `n` calls of `update_game`; `rnd k` is what `rand()` would
return in call `k`. -/
def update_game_n (dive_x : Int → Nat → Int) (rnd : Nat → Nat × Nat) : Nat → GameState → GameState
  | 0, s => s
  | n + 1, s => update_game dive_x (rnd n).1 (rnd n).2 (update_game_n dive_x rnd n s)

/-! ## `render_game` and `main` -/

/-- The destination rectangles `render_game` draws for the aliens. -/
def render_aliens (s : GameState) : List SDL_Rect :=
  (s.g_aliens.filter fun a => a.alive ≠ 0).map alien_rect

/-- The condition of the `while` loop of `main`. -/
def loop_condition (is_running : Int) (s : GameState) : Bool :=
  decide (is_running ≠ 0) && decide (s.g_game_over = 0)

/-- The `while` loop of `main`, one list entry per iteration (the platform
inputs and `rand()` values of that iteration); it stops when the condition
fails or the inputs run out. -/
def main_loop (dive_x : Int → Nat → Int) :
    List (Input × Nat × Nat) → Int → GameState → Int × GameState
  | [], run, s => (run, s)
  | e :: rest, run, s =>
    if loop_condition run s = true then
      let h := handle_input e.1 run s
      main_loop dive_x rest h.1 (update_game dive_x e.2.1 e.2.2 h.2)
    else (run, s)

/-! ## Observations used in the statements -/

/-- Number of slots of the bullet pool with a non-zero `active` flag. -/
def active_count (l : List Bullet) : Nat := l.countP fun b => decide (b.active ≠ 0)

/-- Input with only the left arrow key held. -/
def hold_left : Input := ⟨false, true, false, false, 0, 0⟩

/-- Stand-in for `dive_x` in runs in which no alien dives (it is not consulted
there): the alien stays in its column. -/
def no_sway : Int → Nat → Int := fun fx _ => fx

/-- A living alien whose rectangle, after this tick's motion, intersects `rect`. -/
def collides (dive_x : Int → Nat → Int) (gfx : Int) (rect : SDL_Rect) (a : Alien) : Bool :=
  decide (a.alive ≠ 0) && SDL_HasIntersection rect (alien_rect (move_alien dive_x gfx a))

/-- Number of living aliens of the list whose rectangles, after this tick's
motion, intersect `rect`. -/
def colliders (dive_x : Int → Nat → Int) (gfx : Int) (rect : SDL_Rect) (l : List Alien) : Nat :=
  l.countP (collides dive_x gfx rect)

/-- Every living alien of the list is in formation. -/
def formation_only (l : List Alien) : Bool :=
  l.all fun a => decide (a.alive = 0) || decide (a.state = AlienState.S_FORMATION)

/-- The sway invariant: moving right the offset is in `[-31, 30]`, moving left
in `[-30, 31]`. -/
def sway_inv (s : GameState) : Prop :=
  (s.g_formation_direction = 1 ∧ -31 ≤ s.g_formation_x ∧ s.g_formation_x ≤ 30) ∨
  (s.g_formation_direction = -1 ∧ -30 ≤ s.g_formation_x ∧ s.g_formation_x ≤ 31)

/-- Slot `j` of the list holds an alien with `alive == 0`. -/
def dead_at (l : List Alien) (j : Nat) : Prop := ∃ a, l[j]? = some a ∧ a.alive = 0

/-- The bullet pass leaves an alien as it is or clears its `alive` flag. -/
def shot_or_same (a b : Alien) : Prop := b = a ∨ b = { a with alive := 0 }

/-- Checks `p k a` for every slot `k ≥ n` of a list, counting slots from `n`. -/
def all_from {α : Type} (p : Nat → α → Bool) : Nat → List α → Bool
  | _, [] => true
  | n, a :: l => p n a && all_from p (n + 1) l

/-- Checks, along a run of the loop of `main`, that in every iteration the
last loop of `update_game` meets no diving alien. -/
def quiet_run : List (Input × Nat × Nat) → Int → GameState → Bool
  | [], _, _ => true
  | e :: rest, run, s =>
    if loop_condition run s = true then
      formation_only (before_aliens e.2.1 e.2.2 (handle_input e.1 run s).2).g_aliens &&
        quiet_run rest (handle_input e.1 run s).1
          (update_game no_sway e.2.1 e.2.2 (handle_input e.1 run s).2)
    else true

/-- The horizontal positions the player can take: `x ≡ 4 (mod 5)` between
`-1` and `569`, with the sprite width 32. -/
def player_inv (p : Player) : Prop :=
  p.rect.w = 32 ∧ p.rect.x % 5 = 4 ∧ -1 ≤ p.rect.x ∧ p.rect.x ≤ 569

/-- The clock values at which `handle_input` created a bullet (changed the
pool) along a run of the loop of `main`. -/
def shot_times (dive_x : Int → Nat → Int) :
    List (Input × Nat × Nat) → Int → GameState → List Nat
  | [], _, _ => []
  | e :: rest, run, s =>
    if loop_condition run s = true then
      (if (handle_input e.1 run s).2.g_player_bullets = s.g_player_bullets then []
        else [e.1.ticks]) ++
        shot_times dive_x rest (handle_input e.1 run s).1
          (update_game dive_x e.2.1 e.2.2 (handle_input e.1 run s).2)
    else []

/-- The first `n` iterations of a game in which only the fire key is held:
iteration `i` (from 0) reads the clock at `301 + 17 * i` ms. -/
def hold_space_run (n : Nat) : List (Input × Nat × Nat) :=
  (List.range n).map fun i => (⟨false, false, false, true, 301 + 17 * i, 301 + 17 * i⟩, 0, 0)

/-! ## The states the game reaches -/

/-- The states of a game: the start of the level, and what `handle_input` and
`update_game` make of a state of a game, for any inputs and `rand()` values. -/
inductive Reachable (dive_x : Int → Nat → Int) : GameState → Prop where
  | start : Reachable dive_x level_start
  | input (inp : Input) (run : Int) (s : GameState) :
      Reachable dive_x s → Reachable dive_x (handle_input inp run s).2
  | tick (rr rc : Nat) (s : GameState) :
      Reachable dive_x s → Reachable dive_x (update_game dive_x rr rc s)

/-- Input with no key held. -/
def no_key : Input := ⟨false, false, false, false, 0, 0⟩

/-- A game of 229 iterations: the left arrow key is held in the first 11, which
takes the player to `x = 229`, and no key after that; `rand()` selects slot
`[4][5]` whenever the dive trigger fires (in call 101, and in call 202 without
effect, since that alien is then diving). -/
def dive_run : List (Input × Nat × Nat) :=
  List.replicate 11 (hold_left, 4, 5) ++ List.replicate 218 (no_key, 4, 5)

/-! ## Sample states -/

/-- The aliens swayed to formation offset `g`. -/
def sway_to (g : Int) (l : List Alien) : List Alien :=
  l.map fun a => { a with x := a.formation_x + g }

/-- All aliens showing animation frame `f`. -/
def in_frame (f : Int) (l : List Alien) : List Alien :=
  l.map fun a => { a with anim_frame := f }

/-- Slot `i` killed. -/
def with_dead (i : Nat) (l : List Alien) : List Alien :=
  match l[i]? with
  | some a => l.set i { a with alive := 0 }
  | none => l

/-- Slot `i` diving at `(x, y)` after `t` dive steps. -/
def with_diver (i : Nat) (x y : Int) (t : Nat) (l : List Alien) : List Alien :=
  match l[i]? with
  | some a => l.set i { a with state := AlienState.S_DIVING, x := x, y := y, dive_timer := t }
  | none => l

/-- The start of the level with one bullet in flight below the drone of slot
`[4][0]` (rectangle `(75, 220, 32, 32)`): the bullet moves to `y = 250`. -/
def one_bullet_state : GameState :=
  { level_start with g_player_bullets := [⟨⟨93, 260, 4, 12⟩, 1⟩, ⟨⟨0, 0, 0, 0⟩, 0⟩] }

/-- A game after 114 ticks: formation offset `-10` moving right, the flagship of
slot `[0][0]` 14 steps into a dive at `(115, 102)` and overlapping the
flagship of slot `[1][1]` at `(110, 100)`, the three aliens below that one in
column 1 already shot, and one bullet at `(118, 140)` about to move to
`y = 130`. -/
def double_hit_state : GameState :=
  { level_start with
    g_aliens := with_diver 0 115 102 14
      (with_dead 21 (with_dead 31 (with_dead 41
        (in_frame 1 (sway_to (-10) level_start.g_aliens)))))
    g_player_bullets := [⟨⟨118, 140, 4, 12⟩, 1⟩, ⟨⟨0, 0, 0, 0⟩, 0⟩]
    g_formation_x := -10
    g_formation_direction := 1
    g_dive_timer := 13
    anim_timer := 21
    g_score := 250 }

/-- Slot `i` placed at height `y`. -/
def at_height (i : Nat) (y : Int) (l : List Alien) : List Alien :=
  match l[i]? with
  | some a => l.set i { a with y := y }
  | none => l

/-- Last life, player at `x = 79`, and the flagship of slot `[0][0]` diving
just above the player: its next step takes it to `y = 639`. -/
def last_life_state : GameState :=
  { level_start with
    g_player := ⟨⟨79, 640, 32, 32⟩⟩
    g_lives := 1
    g_aliens := with_diver 0 75 636 192 level_start.g_aliens }

/-- Three lives, player away from the centre at `x = 79`, formation offset
`-11` moving right, and the aliens of slots `[0][0]` and `[0][1]` at the
player's height `y = 640`; after this tick's motion their rectangles are
`(65, 640, 32, 32)` and `(110, 640, 32, 32)`, which both meet the player's
`(79, 640, 32, 32)`. -/
def two_colliders_state : GameState :=
  { level_start with
    g_player := ⟨⟨79, 640, 32, 32⟩⟩
    g_formation_x := -11
    g_aliens := at_height 0 640 (at_height 1 640 (sway_to (-11) level_start.g_aliens)) }

/-- An alien 213 steps into a dive from slot `[0][0]`, at `y = 699`, with the
formation at offset `g` moving right: its next step takes it below the screen. -/
def returning_state (g : Int) : GameState :=
  { level_start with
    g_formation_x := g
    g_aliens := with_diver 0 85 699 213 (sway_to g level_start.g_aliens) }

/-! ## Frame lemmas: what each phase of `update_game` leaves alone -/

theorem anim_phase_fields (s : GameState) :
    (anim_phase s).g_formation_x = s.g_formation_x ∧
    (anim_phase s).g_formation_direction = s.g_formation_direction ∧
    (anim_phase s).g_player = s.g_player ∧
    (anim_phase s).g_player_bullets = s.g_player_bullets ∧
    (anim_phase s).g_score = s.g_score ∧
    (anim_phase s).g_lives = s.g_lives ∧
    (anim_phase s).g_game_over = s.g_game_over ∧
    (anim_phase s).g_dive_timer = s.g_dive_timer := by
  unfold anim_phase
  split <;> simp

theorem dive_phase_fields (rr rc : Nat) (s : GameState) :
    (dive_phase rr rc s).g_formation_x = s.g_formation_x ∧
    (dive_phase rr rc s).g_formation_direction = s.g_formation_direction ∧
    (dive_phase rr rc s).g_player = s.g_player ∧
    (dive_phase rr rc s).g_player_bullets = s.g_player_bullets ∧
    (dive_phase rr rc s).g_score = s.g_score ∧
    (dive_phase rr rc s).g_lives = s.g_lives ∧
    (dive_phase rr rc s).g_game_over = s.g_game_over := by
  unfold dive_phase
  dsimp only
  split
  · split
    · split <;> simp
    · simp
  · simp

theorem update_game_last_shot (dive_x : Int → Nat → Int) (rr rc : Nat) (s : GameState) :
    (update_game dive_x rr rc s).last_shot = s.last_shot := by
  have ha : ∀ t : GameState, (anim_phase t).last_shot = t.last_shot := by
    intro t
    unfold anim_phase
    split <;> rfl
  have hd : ∀ t : GameState, (dive_phase rr rc t).last_shot = t.last_shot := by
    intro t
    unfold dive_phase
    dsimp only
    split
    · split
      · split <;> rfl
      · rfl
    · rfl
  show (dive_phase rr rc (formation_phase (anim_phase (bullets_phase s)))).last_shot = s.last_shot
  rw [hd]
  show (anim_phase (bullets_phase s)).last_shot = s.last_shot
  rw [ha]
  rfl

theorem before_aliens_fields (rr rc : Nat) (s : GameState) :
    (before_aliens rr rc s).g_formation_x = s.g_formation_x + s.g_formation_direction ∧
    (before_aliens rr rc s).g_formation_direction =
      (if c_abs (s.g_formation_x + s.g_formation_direction) > 30
        then s.g_formation_direction * -1 else s.g_formation_direction) ∧
    (before_aliens rr rc s).g_player = s.g_player ∧
    (before_aliens rr rc s).g_player_bullets = (bullets_phase s).g_player_bullets ∧
    (before_aliens rr rc s).g_score = (bullets_phase s).g_score ∧
    (before_aliens rr rc s).g_lives = s.g_lives ∧
    (before_aliens rr rc s).g_game_over = s.g_game_over := by
  unfold before_aliens
  obtain ⟨d1, d2, d3, d4, d5, d6, d7⟩ :=
    dive_phase_fields rr rc (formation_phase (anim_phase (bullets_phase s)))
  obtain ⟨a1, a2, a3, a4, a5, a6, a7, _⟩ := anim_phase_fields (bullets_phase s)
  rw [d1, d2, d3, d4, d5, d6, d7]
  simp only [formation_phase, a1, a2, a3, a4, a5, a6, a7]
  simp [bullets_phase]

theorem update_game_formation (dive_x : Int → Nat → Int) (rr rc : Nat) (s : GameState) :
    (update_game dive_x rr rc s).g_formation_x = s.g_formation_x + s.g_formation_direction ∧
    (update_game dive_x rr rc s).g_formation_direction =
      (if c_abs (s.g_formation_x + s.g_formation_direction) > 30
        then s.g_formation_direction * -1 else s.g_formation_direction) := by
  obtain ⟨h1, h2, _⟩ := before_aliens_fields rr rc s
  exact ⟨h1, h2⟩

theorem update_game_bullets_score (dive_x : Int → Nat → Int) (rr rc : Nat) (s : GameState) :
    (update_game dive_x rr rc s).g_player_bullets = (bullets_phase s).g_player_bullets ∧
    (update_game dive_x rr rc s).g_score = (bullets_phase s).g_score := by
  obtain ⟨_, _, _, h4, h5, _⟩ := before_aliens_fields rr rc s
  exact ⟨h4, h5⟩

theorem sway_inv_update_game (dive_x : Int → Nat → Int) (rr rc : Nat) (s : GameState)
    (h : sway_inv s) : sway_inv (update_game dive_x rr rc s) := by
  obtain ⟨hx, hd⟩ := update_game_formation dive_x rr rc s
  unfold sway_inv at h ⊢
  rw [hx, hd]
  unfold c_abs
  rcases h with ⟨h1, h2, h3⟩ | ⟨h1, h2, h3⟩
  · rw [h1]
    split_ifs <;> omega
  · rw [h1]
    split_ifs <;> omega

theorem sway_inv_update_game_n (dive_x : Int → Nat → Int) (rnd : Nat → Nat × Nat) (n : Nat)
    (s : GameState) (h : sway_inv s) : sway_inv (update_game_n dive_x rnd n s) := by
  induction n with
  | zero => exact h
  | succ k ih => exact sway_inv_update_game dive_x _ _ _ ih

theorem update_game_n_formation_rising (dive_x : Int → Nat → Int) (rnd : Nat → Nat × Nat)
    (s : GameState) (h0 : s.g_formation_x = 0) (h1 : s.g_formation_direction = 1) (n : Nat)
    (hn : n ≤ 31) :
    (update_game_n dive_x rnd n s).g_formation_x = n ∧
    (update_game_n dive_x rnd n s).g_formation_direction = if n = 31 then -1 else 1 := by
  induction n with
  | zero => simp [update_game_n, h0, h1]
  | succ k ih =>
    obtain ⟨ihx, ihd⟩ := ih (by omega)
    obtain ⟨hx, hd⟩ := update_game_formation dive_x (rnd k).1 (rnd k).2 (update_game_n dive_x rnd k s)
    simp only [update_game_n]
    rw [hx, hd, ihx, ihd]
    unfold c_abs
    have hk : ¬ k = 31 := by omega
    simp only [hk, if_false]
    constructor
    · push_cast; ring
    · split_ifs <;> omega

theorem all_from_spec {α : Type} (p : Nat → α → Bool) (n : Nat) (l : List α)
    (h : all_from p n l = true) : ∀ k a, l[k]? = some a → p (n + k) a = true := by
  induction l generalizing n with
  | nil => intro k a hk; simp at hk
  | cons c rest ih =>
    simp only [all_from, Bool.and_eq_true] at h
    intro k a hk
    cases k with
    | zero =>
      simp only [List.getElem?_cons_zero, Option.some.injEq] at hk
      subst hk
      exact h.1
    | succ m =>
      simp only [List.getElem?_cons_succ] at hk
      have := ih (n + 1) h.2 m a hk
      rwa [show n + (m + 1) = n + 1 + m by omega]

/-- Every slot other than `i` of the pool is inactive, from a computed check. -/
theorem others_inactive_of_check (bs : List Bullet) (i : Nat)
    (h : all_from (fun k c => decide (k = i) || decide (c.active = 0)) 0 bs = true) :
    ∀ k c, k ≠ i → bs[k]? = some c → c.active = 0 := by
  intro k c hk hc
  have := all_from_spec _ 0 bs h k c hc
  simpa [hk] using this

/-- No living alien other than slot `j` meets the rectangle, from a computed check. -/
theorem others_missed_of_check (rect : SDL_Rect) (l : List Alien) (j : Nat)
    (h : all_from (fun k a => decide (k = j) || decide (a.alive = 0) ||
      !SDL_HasIntersection rect (alien_rect a)) 0 l = true) :
    ∀ k a, k ≠ j → l[k]? = some a → a.alive ≠ 0 →
      SDL_HasIntersection rect (alien_rect a) = false := by
  intro k a hk ha hl
  have := all_from_spec _ 0 l h k a ha
  simpa [hk, hl] using this

/-! ## The bullet pass -/

theorem bullet_vs_aliens_no_hit (rect : SDL_Rect) (l : List Alien) (active score : Int)
    (h : ∀ a ∈ l, a.alive ≠ 0 → SDL_HasIntersection rect (alien_rect a) = false) :
    bullet_vs_aliens rect l active score = (l, active, score) := by
  induction l with
  | nil => rfl
  | cons a rest ih =>
    have hrest := ih (fun c hc => h c (List.mem_cons_of_mem a hc))
    have ha := h a (List.mem_cons_self a rest)
    by_cases hl : a.alive = 0
    · simp [bullet_vs_aliens, hl, hrest]
    · simp [bullet_vs_aliens, hl, ha hl, hrest]

theorem bullet_vs_aliens_one_hit (rect : SDL_Rect) (l : List Alien) (j : Nat) (A : Alien)
    (active score : Int)
    (hA : l[j]? = some A) (hlive : A.alive ≠ 0)
    (hhit : SDL_HasIntersection rect (alien_rect A) = true)
    (honly : ∀ k a, k ≠ j → l[k]? = some a → a.alive ≠ 0 →
      SDL_HasIntersection rect (alien_rect a) = false) :
    bullet_vs_aliens rect l active score =
      (l.set j { A with alive := 0 }, 0, score + (A.type + 1) * 50) := by
  induction l generalizing j active score with
  | nil => simp at hA
  | cons a rest ih =>
    cases j with
    | zero =>
      simp only [List.getElem?_cons_zero, Option.some.injEq] at hA
      subst hA
      have hrest : ∀ c ∈ rest, c.alive ≠ 0 → SDL_HasIntersection rect (alien_rect c) = false := by
        intro c hc hcl
        obtain ⟨k, hk⟩ := List.getElem?_of_mem hc
        exact honly (k + 1) c (by omega) (by simpa using hk) hcl
      simp [bullet_vs_aliens, hlive, hhit, bullet_vs_aliens_no_hit rect rest _ _ hrest]
    | succ k =>
      simp only [List.getElem?_cons_succ] at hA
      have ha : a.alive ≠ 0 → SDL_HasIntersection rect (alien_rect a) = false :=
        honly 0 a (by omega) (by simp)
      have hrec := ih k active score hA
        (fun m c hm hc hcl => honly (m + 1) c (by omega) (by simpa using hc) hcl)
      by_cases hl : a.alive = 0
      · simp [bullet_vs_aliens, hl, hrec]
      · simp [bullet_vs_aliens, hl, ha hl, hrec]

theorem update_bullets_inactive (bs : List Bullet) (aliens : List Alien) (score : Int)
    (h : ∀ b ∈ bs, b.active = 0) : update_bullets bs aliens score = (bs, aliens, score) := by
  induction bs with
  | nil => rfl
  | cons b rest ih =>
    have hb := h b (List.mem_cons_self b rest)
    have hrest := ih (fun c hc => h c (List.mem_cons_of_mem b hc))
    simp [update_bullets, hb, hrest]

theorem update_bullets_single (bs : List Bullet) (i : Nat) (b : Bullet) (aliens : List Alien)
    (score : Int) (hb : bs[i]? = some b) (hact : b.active ≠ 0)
    (hone : ∀ k c, k ≠ i → bs[k]? = some c → c.active = 0) :
    update_bullets bs aliens score =
      (bs.set i
        { rect := moved_rect b
          active := (bullet_vs_aliens (moved_rect b) aliens
            (if (moved_rect b).y < 0 then 0 else b.active) score).2.1 },
       (bullet_vs_aliens (moved_rect b) aliens
          (if (moved_rect b).y < 0 then 0 else b.active) score).1,
       (bullet_vs_aliens (moved_rect b) aliens
          (if (moved_rect b).y < 0 then 0 else b.active) score).2.2) := by
  induction bs generalizing i with
  | nil => simp at hb
  | cons c rest ih =>
    cases i with
    | zero =>
      simp only [List.getElem?_cons_zero, Option.some.injEq] at hb
      subst hb
      have hrest : ∀ d ∈ rest, d.active = 0 := by
        intro d hd
        obtain ⟨k, hk⟩ := List.getElem?_of_mem hd
        exact hone (k + 1) d (by omega) (by simpa using hk)
      simp [update_bullets, hact, update_bullets_inactive rest _ _ hrest]
    | succ k =>
      simp only [List.getElem?_cons_succ] at hb
      have hc : c.active = 0 := hone 0 c (by omega) (by simp)
      have hrec := ih k hb (fun m d hm hd => hone (m + 1) d (by omega) (by simpa using hd))
      simp [update_bullets, hc, hrec]

/-! ## Dead aliens stay dead -/

theorem dead_at_anim_phase (s : GameState) (j : Nat) (h : dead_at s.g_aliens j) :
    dead_at (anim_phase s).g_aliens j := by
  obtain ⟨a, ha, h0⟩ := h
  unfold anim_phase
  split
  · exact ⟨{ a with anim_frame := 1 - a.anim_frame }, by simp [ha], h0⟩
  · exact ⟨a, ha, h0⟩

theorem dead_at_dive_phase (rr rc : Nat) (s : GameState) (j : Nat) (h : dead_at s.g_aliens j) :
    dead_at (dive_phase rr rc s).g_aliens j := by
  obtain ⟨a, ha, h0⟩ := h
  unfold dive_phase
  dsimp only
  split
  · split
    · rename_i c hc
      split
      · rename_i hcond
        by_cases hij : rr % ALIEN_ROWS * ALIEN_COLS + rc % ALIEN_COLS = j
        · subst hij
          rw [hc] at ha
          simp only [Option.some.injEq] at ha
          subst ha
          exact absurd h0 hcond.1
        · exact ⟨a, by simp [List.getElem?_set, hij, ha], h0⟩
      · exact ⟨a, ha, h0⟩
    · exact ⟨a, ha, h0⟩
  · exact ⟨a, ha, h0⟩

theorem alien_step_dead (dive_x : Int → Nat → Int) (gfx : Int) (a : Alien) (st : PassState)
    (h : a.alive = 0) : alien_step dive_x gfx a st = (a, st) := by
  simp [alien_step, h]

theorem update_aliens_getElem?_succ (dive_x : Int → Nat → Int) (gfx : Int) (a : Alien)
    (rest : List Alien) (st : PassState) (k : Nat) :
    (update_aliens dive_x gfx (a :: rest) st).1[k + 1]? =
      (update_aliens dive_x gfx rest (alien_step dive_x gfx a st).2).1[k]? := by
  simp [update_aliens]

theorem dead_at_update_aliens (dive_x : Int → Nat → Int) (gfx : Int) (l : List Alien)
    (st : PassState) (j : Nat) (h : dead_at l j) :
    dead_at (update_aliens dive_x gfx l st).1 j := by
  induction l generalizing j st with
  | nil => obtain ⟨a, ha, _⟩ := h; simp at ha
  | cons c rest ih =>
    obtain ⟨a, ha, h0⟩ := h
    cases j with
    | zero =>
      simp only [List.getElem?_cons_zero, Option.some.injEq] at ha
      subst ha
      exact ⟨c, by simp [update_aliens, alien_step_dead, h0], h0⟩
    | succ k =>
      simp only [List.getElem?_cons_succ] at ha
      unfold dead_at
      rw [update_aliens_getElem?_succ]
      exact ih _ k ⟨a, ha, h0⟩

theorem dead_at_update_game (dive_x : Int → Nat → Int) (rr rc : Nat) (s : GameState) (j : Nat)
    (h : dead_at (bullets_phase s).g_aliens j) :
    dead_at (update_game dive_x rr rc s).g_aliens j := by
  unfold update_game before_aliens aliens_phase
  apply dead_at_update_aliens
  apply dead_at_dive_phase
  exact dead_at_anim_phase _ j h

/-! ## The alien pass -/

theorem respawn_x : SCREEN_WIDTH / 2 - SPRITE_SIZE / 2 = 284 := by decide

theorem respawn_same (p : Player) (h : p.rect.x = 284) :
    (⟨{ p.rect with x := SCREEN_WIDTH / 2 - SPRITE_SIZE / 2 }⟩ : Player) = p := by
  obtain ⟨⟨x, y, w, hh⟩⟩ := p
  simp only at h
  simp [respawn_x, h]

theorem colliders_cons (dive_x : Int → Nat → Int) (gfx : Int) (rect : SDL_Rect) (a : Alien)
    (rest : List Alien) :
    colliders dive_x gfx rect (a :: rest) =
      colliders dive_x gfx rect rest + (if collides dive_x gfx rect a = true then 1 else 0) := by
  simp [colliders, List.countP_cons]

/-- While no respawn can move the player (it already stands at `x = 284`, or
at most one life is left), one step of the alien pass keeps the player where
it is and takes one life if the alien collides. -/
theorem alien_step_fixed_player (dive_x : Int → Nat → Int) (gfx : Int) (a : Alien)
    (st : PassState) (H : st.player.rect.x = 284 ∨ st.lives ≤ 1) :
    (alien_step dive_x gfx a st).2.player = st.player ∧
    (alien_step dive_x gfx a st).2.lives =
      st.lives - (if collides dive_x gfx st.player.rect a = true then 1 else 0) := by
  by_cases h1 : a.alive = 0
  · simp [alien_step, collides, h1]
  · by_cases h2 : SDL_HasIntersection st.player.rect (alien_rect (move_alien dive_x gfx a)) = true
    · by_cases h3 : st.lives - 1 ≤ 0
      · simp [alien_step, collides, h1, h2, h3]
      · have hx : st.player.rect.x = 284 := by
          rcases H with h | h
          · exact h
          · omega
        have hp := respawn_same st.player hx
        simp only [alien_step, collides, h1, h2, h3, ne_eq, not_false_eq_true, if_true, if_false,
          decide_True, Bool.and_self]
        exact ⟨hp, trivial⟩
    · have h2f : SDL_HasIntersection st.player.rect
          (alien_rect (move_alien dive_x gfx a)) = false := by simpa using h2
      simp [alien_step, collides, h1, h2f]

theorem update_aliens_fixed_player (dive_x : Int → Nat → Int) (gfx : Int) (l : List Alien)
    (st : PassState) (H : st.player.rect.x = 284 ∨ st.lives ≤ 1) :
    (update_aliens dive_x gfx l st).2.player = st.player ∧
    (update_aliens dive_x gfx l st).2.lives =
      st.lives - colliders dive_x gfx st.player.rect l := by
  induction l generalizing st with
  | nil => simp [update_aliens, colliders]
  | cons a rest ih =>
    obtain ⟨p1, l1⟩ := alien_step_fixed_player dive_x gfx a st H
    have H1 : (alien_step dive_x gfx a st).2.player.rect.x = 284 ∨
        (alien_step dive_x gfx a st).2.lives ≤ 1 := by
      rcases H with h | h
      · exact Or.inl (by rw [p1]; exact h)
      · refine Or.inr ?_
        rw [l1]
        split_ifs <;> omega
    obtain ⟨e1, e2⟩ := ih _ H1
    rw [colliders_cons]
    simp only [update_aliens]
    rw [e1, e2, p1, l1]
    refine ⟨rfl, ?_⟩
    split_ifs <;> push_cast <;> ring

/-- With at most one life left, a step of the alien pass latches the game-over
flag exactly when the alien collides. -/
theorem alien_step_game_over (dive_x : Int → Nat → Int) (gfx : Int) (a : Alien)
    (st : PassState) (H : st.lives ≤ 1) :
    (alien_step dive_x gfx a st).2.game_over =
      if collides dive_x gfx st.player.rect a = true then 1 else st.game_over := by
  by_cases h1 : a.alive = 0
  · simp [alien_step, collides, h1]
  · by_cases h2 : SDL_HasIntersection st.player.rect (alien_rect (move_alien dive_x gfx a)) = true
    · have h3 : st.lives - 1 ≤ 0 := by omega
      simp [alien_step, collides, h1, h2, h3]
    · have h2f : SDL_HasIntersection st.player.rect
          (alien_rect (move_alien dive_x gfx a)) = false := by simpa using h2
      simp [alien_step, collides, h1, h2f]

/-- With at most one life left, the alien pass latches `g_game_over` as soon as
one alien collides and leaves it alone otherwise. -/
theorem update_aliens_game_over (dive_x : Int → Nat → Int) (gfx : Int) (l : List Alien)
    (st : PassState) (H : st.lives ≤ 1) :
    (update_aliens dive_x gfx l st).2.game_over =
      if colliders dive_x gfx st.player.rect l = 0 then st.game_over else 1 := by
  induction l generalizing st with
  | nil => simp [update_aliens, colliders]
  | cons a rest ih =>
    obtain ⟨p1, l1⟩ := alien_step_fixed_player dive_x gfx a st (Or.inr H)
    have g1 := alien_step_game_over dive_x gfx a st H
    have H1 : (alien_step dive_x gfx a st).2.lives ≤ 1 := by
      rw [l1]
      split_ifs <;> omega
    have e := ih _ H1
    rw [colliders_cons]
    simp only [update_aliens]
    rw [e, p1, g1]
    by_cases hc : collides dive_x gfx st.player.rect a = true <;>
      by_cases hr : colliders dive_x gfx st.player.rect rest = 0 <;>
      simp [hc, hr]

theorem update_game_lives (dive_x : Int → Nat → Int) (rr rc : Nat) (s : GameState) :
    (update_game dive_x rr rc s).g_lives =
      (update_aliens dive_x (before_aliens rr rc s).g_formation_x (before_aliens rr rc s).g_aliens
        ⟨s.g_player, s.g_lives, s.g_game_over⟩).2.lives ∧
    (update_game dive_x rr rc s).g_game_over =
      (update_aliens dive_x (before_aliens rr rc s).g_formation_x (before_aliens rr rc s).g_aliens
        ⟨s.g_player, s.g_lives, s.g_game_over⟩).2.game_over ∧
    (update_game dive_x rr rc s).g_player =
      (update_aliens dive_x (before_aliens rr rc s).g_formation_x (before_aliens rr rc s).g_aliens
        ⟨s.g_player, s.g_lives, s.g_game_over⟩).2.player := by
  obtain ⟨_, _, h3, _, _, h6, h7⟩ := before_aliens_fields rr rc s
  simp only [update_game, aliens_phase, h3, h6, h7, and_self]

theorem main_loop_game_over (dive_x : Int → Nat → Int) (inputs : List (Input × Nat × Nat))
    (run : Int) (s : GameState) (h : s.g_game_over = 1) :
    main_loop dive_x inputs run s = (run, s) := by
  cases inputs with
  | nil => rfl
  | cons e rest => simp [main_loop, loop_condition, h]

/-! ## Ticks in which no alien dives do not consult `dive_x` -/

theorem alien_step_formation (dive_x : Int → Nat → Int) (gfx : Int) (a : Alien) (st : PassState)
    (h : a.alive = 0 ∨ a.state = AlienState.S_FORMATION) :
    alien_step dive_x gfx a st = alien_step no_sway gfx a st := by
  rcases h with h | h
  · simp [alien_step, h]
  · simp [alien_step, move_alien, h]

theorem collides_formation (dive_x : Int → Nat → Int) (gfx : Int) (rect : SDL_Rect) (a : Alien)
    (h : a.alive = 0 ∨ a.state = AlienState.S_FORMATION) :
    collides dive_x gfx rect a = collides no_sway gfx rect a := by
  rcases h with h | h
  · simp [collides, h]
  · simp [collides, move_alien, h]

theorem update_aliens_formation_only (dive_x : Int → Nat → Int) (gfx : Int) (l : List Alien)
    (st : PassState) (h : formation_only l = true) :
    update_aliens dive_x gfx l st = update_aliens no_sway gfx l st := by
  induction l generalizing st with
  | nil => rfl
  | cons a rest ih =>
    simp only [formation_only, List.all_cons, Bool.and_eq_true, Bool.or_eq_true,
      decide_eq_true_eq] at h
    have hrest : formation_only rest = true := by
      simpa [formation_only] using h.2
    simp only [update_aliens, alien_step_formation dive_x gfx a _ h.1, ih _ hrest]

theorem colliders_formation_only (dive_x : Int → Nat → Int) (gfx : Int) (rect : SDL_Rect)
    (l : List Alien) (h : formation_only l = true) :
    colliders dive_x gfx rect l = colliders no_sway gfx rect l := by
  induction l with
  | nil => rfl
  | cons a rest ih =>
    simp only [formation_only, List.all_cons, Bool.and_eq_true, Bool.or_eq_true,
      decide_eq_true_eq] at h
    have hrest : formation_only rest = true := by
      simpa [formation_only] using h.2
    rw [colliders_cons, colliders_cons, collides_formation dive_x gfx rect a h.1, ih hrest]

theorem update_game_formation_only (dive_x : Int → Nat → Int) (rr rc : Nat) (s : GameState)
    (h : formation_only (before_aliens rr rc s).g_aliens = true) :
    update_game dive_x rr rc s = update_game no_sway rr rc s := by
  simp only [update_game, aliens_phase, update_aliens_formation_only dive_x _ _ _ h]

theorem before_aliens_idle (rr rc : Nat) (s : GameState) (h : s.g_dive_timer + 1 ≤ 100) :
    before_aliens rr rc s = before_aliens 0 0 s := by
  obtain ⟨_, _, _, _, _, _, _, a8⟩ := anim_phase_fields (bullets_phase s)
  have ht : (formation_phase (anim_phase (bullets_phase s))).g_dive_timer = s.g_dive_timer := by
    show (anim_phase (bullets_phase s)).g_dive_timer = s.g_dive_timer
    rw [a8]
    rfl
  have hn : ¬ (formation_phase (anim_phase (bullets_phase s))).g_dive_timer + 1 > 100 := by
    rw [ht]; omega
  simp only [before_aliens, dive_phase, hn, if_false]

/-! ## Following one alien slot through `update_game` -/

theorem shot_or_same_trans (a b c : Alien) (h1 : shot_or_same a b) (h2 : shot_or_same b c) :
    shot_or_same a c := by
  rcases h1 with rfl | rfl
  · exact h2
  · rcases h2 with rfl | rfl
    · exact Or.inr rfl
    · exact Or.inr rfl

theorem bullet_vs_aliens_getElem? (rect : SDL_Rect) (l : List Alien) (active score : Int)
    (j : Nat) (a : Alien) (ha : l[j]? = some a) :
    ∃ b, (bullet_vs_aliens rect l active score).1[j]? = some b ∧ shot_or_same a b := by
  induction l generalizing j active score with
  | nil => simp at ha
  | cons c rest ih =>
    cases j with
    | zero =>
      simp only [List.getElem?_cons_zero, Option.some.injEq] at ha
      subst ha
      simp only [bullet_vs_aliens]
      split_ifs
      · exact ⟨_, by simp, Or.inr rfl⟩
      · exact ⟨_, by simp, Or.inl rfl⟩
    | succ k =>
      simp only [List.getElem?_cons_succ] at ha
      simp only [bullet_vs_aliens]
      split_ifs
      · simpa using ih 0 (score + (c.type + 1) * 50) k ha
      · simpa using ih active score k ha

theorem update_bullets_getElem? (bs : List Bullet) (l : List Alien) (score : Int)
    (j : Nat) (a : Alien) (ha : l[j]? = some a) :
    ∃ b, (update_bullets bs l score).2.1[j]? = some b ∧ shot_or_same a b := by
  induction bs generalizing l score a with
  | nil => exact ⟨a, by simpa [update_bullets] using ha, Or.inl rfl⟩
  | cons c rest ih =>
    by_cases hc : c.active = 0
    · have e : (update_bullets (c :: rest) l score).2.1 = (update_bullets rest l score).2.1 := by
        simp [update_bullets, hc]
      rw [e]
      exact ih l score a ha
    · have e : (update_bullets (c :: rest) l score).2.1 =
          (update_bullets rest
            (bullet_vs_aliens (moved_rect c) l (if (moved_rect c).y < 0 then 0 else c.active)
              score).1
            (bullet_vs_aliens (moved_rect c) l (if (moved_rect c).y < 0 then 0 else c.active)
              score).2.2).2.1 := by
        simp [update_bullets, hc]
      rw [e]
      obtain ⟨b1, hb1, r1⟩ := bullet_vs_aliens_getElem? (moved_rect c) l
        (if (moved_rect c).y < 0 then 0 else c.active) score j a ha
      obtain ⟨b2, hb2, r2⟩ := ih _ _ b1 hb1
      exact ⟨b2, hb2, shot_or_same_trans a b1 b2 r1 r2⟩

theorem anim_phase_getElem? (s : GameState) (j : Nat) (a : Alien) (ha : s.g_aliens[j]? = some a) :
    ∃ b, (anim_phase s).g_aliens[j]? = some b ∧ b = { a with anim_frame := b.anim_frame } := by
  unfold anim_phase
  split
  · exact ⟨{ a with anim_frame := 1 - a.anim_frame }, by simp [ha], rfl⟩
  · exact ⟨a, ha, rfl⟩

theorem dive_phase_getElem? (rr rc : Nat) (s : GameState) (j : Nat) (a : Alien)
    (ha : s.g_aliens[j]? = some a) :
    ∃ b, (dive_phase rr rc s).g_aliens[j]? = some b ∧
      (b = a ∨ (a.state = AlienState.S_FORMATION ∧
        b = { a with state := AlienState.S_DIVING, dive_timer := 0 })) := by
  unfold dive_phase
  dsimp only
  split
  · split
    · rename_i c hc
      split
      · rename_i hcond
        by_cases hij : rr % ALIEN_ROWS * ALIEN_COLS + rc % ALIEN_COLS = j
        · subst hij
          rw [hc] at ha
          simp only [Option.some.injEq] at ha
          subst ha
          have hlt := (List.getElem?_eq_some.mp hc).1
          exact ⟨_, by simp [List.getElem?_set, hlt], Or.inr ⟨hcond.2, rfl⟩⟩
        · exact ⟨a, by simp [List.getElem?_set, hij, ha], Or.inl rfl⟩
      · exact ⟨a, ha, Or.inl rfl⟩
    · exact ⟨a, ha, Or.inl rfl⟩
  · exact ⟨a, ha, Or.inl rfl⟩

theorem update_aliens_getElem? (dive_x : Int → Nat → Int) (gfx : Int) (l : List Alien)
    (st : PassState) (j : Nat) (a : Alien) (ha : l[j]? = some a) :
    ∃ st1, (update_aliens dive_x gfx l st).1[j]? = some (alien_step dive_x gfx a st1).1 := by
  induction l generalizing j st with
  | nil => simp at ha
  | cons c rest ih =>
    cases j with
    | zero =>
      simp only [List.getElem?_cons_zero, Option.some.injEq] at ha
      subst ha
      exact ⟨st, by simp [update_aliens]⟩
    | succ k =>
      simp only [List.getElem?_cons_succ] at ha
      rw [update_aliens_getElem?_succ]
      exact ih _ k ha

theorem update_aliens_head (dive_x : Int → Nat → Int) (gfx : Int) (l : List Alien)
    (st : PassState) (a : Alien) (ha : l[0]? = some a) :
    (update_aliens dive_x gfx l st).1[0]? = some (alien_step dive_x gfx a st).1 := by
  cases l with
  | nil => simp at ha
  | cons c rest =>
    simp only [List.getElem?_cons_zero, Option.some.injEq] at ha
    subst ha
    simp [update_aliens]

/-- What a step of the alien pass does to a living alien, apart from `alive`. -/
theorem alien_step_living (dive_x : Int → Nat → Int) (gfx : Int) (a : Alien) (st : PassState)
    (h : a.alive ≠ 0) :
    (alien_step dive_x gfx a st).1 = move_alien dive_x gfx a ∨
    (alien_step dive_x gfx a st).1 = { move_alien dive_x gfx a with alive := 0 } := by
  simp only [alien_step, h, ne_eq, not_false_eq_true, if_true]
  split_ifs
  · exact Or.inl rfl
  · exact Or.inr rfl
  · exact Or.inl rfl

theorem move_alien_diving (dive_x : Int → Nat → Int) (gfx : Int) (b : Alien)
    (hs : b.state = AlienState.S_DIVING) :
    (b.y + 3 ≤ 700 → (move_alien dive_x gfx b).y = b.y + 3 ∧
      (move_alien dive_x gfx b).state = AlienState.S_DIVING) ∧
    (b.y + 3 > 700 → (move_alien dive_x gfx b).y = b.formation_y ∧
      (move_alien dive_x gfx b).state = AlienState.S_FORMATION) := by
  constructor
  · intro h
    have hm : ¬ (b.y + 3 > SCREEN_HEIGHT) := by simp only [SCREEN_HEIGHT]; omega
    simp [move_alien, hs, hm]
  · intro h
    have hm : b.y + 3 > SCREEN_HEIGHT := by simp only [SCREEN_HEIGHT]; omega
    simp [move_alien, hs, hm]

theorem alien_step_y_state (dive_x : Int → Nat → Int) (gfx : Int) (a : Alien) (st : PassState)
    (h : a.alive ≠ 0) :
    (alien_step dive_x gfx a st).1.y = (move_alien dive_x gfx a).y ∧
    (alien_step dive_x gfx a st).1.state = (move_alien dive_x gfx a).state := by
  rcases alien_step_living dive_x gfx a st h with e | e <;> rw [e] <;> exact ⟨rfl, rfl⟩

/-- Rectangles whose vertical spans are disjoint do not intersect. -/
theorem SDL_HasIntersection_apart (A B : SDL_Rect) (h : A.y + A.h ≤ B.y ∨ B.y + B.h ≤ A.y) :
    SDL_HasIntersection A B = false := by
  unfold SDL_HasIntersection
  simp only [Bool.if_false_left, Bool.if_true_right, Bool.and_eq_false_imp]
  split_ifs <;> simp <;> omega

theorem update_game_head (dive_x : Int → Nat → Int) (rr rc : Nat) (s : GameState) (a0 : Alien)
    (h0 : (before_aliens rr rc s).g_aliens[0]? = some a0) :
    (update_game dive_x rr rc s).g_aliens[0]? =
      some (alien_step dive_x (s.g_formation_x + s.g_formation_direction) a0
        ⟨s.g_player, s.g_lives, s.g_game_over⟩).1 := by
  obtain ⟨f1, _, f3, _, _, f6, f7⟩ := before_aliens_fields rr rc s
  show (update_aliens dive_x (before_aliens rr rc s).g_formation_x
    (before_aliens rr rc s).g_aliens ⟨(before_aliens rr rc s).g_player,
      (before_aliens rr rc s).g_lives, (before_aliens rr rc s).g_game_over⟩).1[0]? = _
  rw [update_aliens_head dive_x _ _ _ a0 h0, f1, f3, f6, f7]

/-- A diver that passes the bottom of the screen and whose home row is not at
the player's height goes back to formation with the `x` of its dive. -/
theorem alien_step_returning (dive_x : Int → Nat → Int) (gfx : Int) (a : Alien) (st : PassState)
    (hl : a.alive ≠ 0) (hs : a.state = AlienState.S_DIVING) (hy : a.y + 3 > 700)
    (hp : st.player.rect.y + st.player.rect.h ≤ a.formation_y ∨
      a.formation_y + 32 ≤ st.player.rect.y) :
    (alien_step dive_x gfx a st).1 =
      { a with
        dive_timer := a.dive_timer + 1
        x := dive_x a.formation_x (a.dive_timer + 1)
        y := a.formation_y
        state := AlienState.S_FORMATION } := by
  have hm : a.y + 3 > SCREEN_HEIGHT := by simp only [SCREEN_HEIGHT]; omega
  have hmove : move_alien dive_x gfx a =
      { a with
        dive_timer := a.dive_timer + 1
        x := dive_x a.formation_x (a.dive_timer + 1)
        y := a.formation_y
        state := AlienState.S_FORMATION } := by
    simp [move_alien, hs, hm]
  have hno : SDL_HasIntersection st.player.rect (alien_rect (move_alien dive_x gfx a)) = false := by
    apply SDL_HasIntersection_apart
    rw [hmove]
    simpa [alien_rect, SPRITE_SIZE] using hp
  simp only [alien_step, hl, ne_eq, not_false_eq_true, if_true, hno, Bool.false_eq_true, if_false]
  exact hmove

/-! ## The player's horizontal range -/

theorem move_player_inv (inp : Input) (p : Player) (h : player_inv p) :
    player_inv (move_player inp p) := by
  obtain ⟨hw, hm, hlo, hhi⟩ := h
  unfold move_player player_inv
  simp only [PLAYER_SPEED, SCREEN_WIDTH]
  split_ifs with h1 h2 h2
  · obtain ⟨_, h1⟩ := h1
    obtain ⟨_, h2⟩ := h2
    dsimp only at h2 ⊢
    omega
  · obtain ⟨_, h1⟩ := h1
    dsimp only
    omega
  · obtain ⟨_, h2⟩ := h2
    dsimp only
    omega
  · omega

theorem handle_input_player (inp : Input) (run : Int) (s : GameState) :
    (handle_input inp run s).2.g_player = move_player inp s.g_player := by
  unfold handle_input
  dsimp only
  split_ifs <;> rfl

theorem alien_step_player_inv (dive_x : Int → Nat → Int) (gfx : Int) (a : Alien) (st : PassState)
    (h : player_inv st.player) : player_inv (alien_step dive_x gfx a st).2.player := by
  unfold alien_step
  dsimp only
  split_ifs
  · exact h
  · obtain ⟨hw, _, _, _⟩ := h
    refine ⟨hw, ?_, ?_, ?_⟩ <;> simp only [respawn_x] <;> omega
  · exact h
  · exact h

theorem update_aliens_player_inv (dive_x : Int → Nat → Int) (gfx : Int) (l : List Alien)
    (st : PassState) (h : player_inv st.player) :
    player_inv (update_aliens dive_x gfx l st).2.player := by
  induction l generalizing st with
  | nil => exact h
  | cons a rest ih =>
    simp only [update_aliens]
    exact ih _ (alien_step_player_inv dive_x gfx a st h)

theorem update_game_player_inv (dive_x : Int → Nat → Int) (rr rc : Nat) (s : GameState)
    (h : player_inv s.g_player) : player_inv (update_game dive_x rr rc s).g_player := by
  rw [(update_game_lives dive_x rr rc s).2.2]
  exact update_aliens_player_inv dive_x _ _ _ h

theorem main_loop_player_inv (dive_x : Int → Nat → Int) (inputs : List (Input × Nat × Nat))
    (run : Int) (s : GameState) (h : player_inv s.g_player) :
    player_inv (main_loop dive_x inputs run s).2.g_player := by
  induction inputs generalizing run s with
  | nil => exact h
  | cons e rest ih =>
    simp only [main_loop]
    split_ifs
    · apply ih
      apply update_game_player_inv
      rw [handle_input_player]
      exact move_player_inv e.1 s.g_player h
    · exact h

/-- In every state the loop of `main` reaches from the start of the level the
player's rectangle has `-1 ≤ x ≤ 569` (and both ends are reached). -/
theorem player_x_range (dive_x : Int → Nat → Int) (inputs : List (Input × Nat × Nat)) (run : Int) :
    -1 ≤ (main_loop dive_x inputs run level_start).2.g_player.rect.x ∧
    (main_loop dive_x inputs run level_start).2.g_player.rect.x ≤ 569 := by
  have h := main_loop_player_inv dive_x inputs run level_start
    ⟨by decide, by decide, by decide, by decide⟩
  exact ⟨h.2.2.1, h.2.2.2⟩

theorem main_loop_quiet (dive_x : Int → Nat → Int) (inputs : List (Input × Nat × Nat))
    (run : Int) (s : GameState) (h : quiet_run inputs run s = true) :
    main_loop dive_x inputs run s = main_loop no_sway inputs run s := by
  induction inputs generalizing run s with
  | nil => rfl
  | cons e rest ih =>
    simp only [quiet_run] at h
    simp only [main_loop]
    split_ifs with hc
    · rw [if_pos hc, Bool.and_eq_true] at h
      rw [update_game_formation_only dive_x _ _ _ h.1]
      exact ih _ _ h.2
    · rfl

/-! ## The runs and states used against the claims, for every `dive_x` -/

/-- After 31 calls from the start of the level the formation offset is 31,
whatever `rand()` and `sinf` return. -/
theorem offset_reaches_31 (dive_x : Int → Nat → Int) (rnd : Nat → Nat × Nat) :
    (update_game_n dive_x rnd 31 level_start).g_formation_x = 31 := by
  have h := (update_game_n_formation_rising dive_x rnd level_start rfl rfl 31 (by omega)).1
  rw [h]; rfl

/-- In `two_colliders_state` no alien dives and the dive trigger is idle, so
the call does not depend on `dive_x` or on `rand()`. -/
theorem two_colliders_any_dive (dive_x : Int → Nat → Int) (rr rc : Nat) :
    update_game dive_x rr rc two_colliders_state = update_game no_sway 0 0 two_colliders_state ∧
    colliders dive_x (before_aliens rr rc two_colliders_state).g_formation_x
        two_colliders_state.g_player.rect (before_aliens rr rc two_colliders_state).g_aliens =
      colliders no_sway (before_aliens 0 0 two_colliders_state).g_formation_x
        two_colliders_state.g_player.rect (before_aliens 0 0 two_colliders_state).g_aliens := by
  have hb : before_aliens rr rc two_colliders_state = before_aliens 0 0 two_colliders_state :=
    before_aliens_idle rr rc _ (by decide)
  have hf : formation_only (before_aliens 0 0 two_colliders_state).g_aliens = true := by decide
  constructor
  · rw [update_game_formation_only dive_x rr rc _ (by rw [hb]; exact hf)]
    simp only [update_game, hb]
  · rw [hb, colliders_formation_only dive_x _ _ _ hf]

/-- The diver of `returning_state g` passes the bottom of the screen in this
call and is put back in state FORMATION, alive, with the `x` computed by the
dive law, `dive_x 75 214`, whatever the formation offset `g + 1` is. -/
theorem returning_diver_after (dive_x : Int → Nat → Int) (rr rc : Nat) :
    (update_game dive_x rr rc (returning_state 0)).g_aliens[0]? =
      some ⟨dive_x 75 214, 60, 75, 60, 1, 2, 0, AlienState.S_FORMATION, 214⟩ ∧
    (update_game dive_x rr rc (returning_state 0)).g_formation_x = 1 ∧
    (update_game dive_x rr rc (returning_state 10)).g_aliens[0]? =
      some ⟨dive_x 75 214, 60, 75, 60, 1, 2, 0, AlienState.S_FORMATION, 214⟩ ∧
    (update_game dive_x rr rc (returning_state 10)).g_formation_x = 11 := by
  have hb0 := before_aliens_idle rr rc (returning_state 0) (by decide)
  have hb10 := before_aliens_idle rr rc (returning_state 10) (by decide)
  have ha0 : (before_aliens rr rc (returning_state 0)).g_aliens[0]? =
      some ⟨85, 699, 75, 60, 1, 2, 0, AlienState.S_DIVING, 213⟩ := by rw [hb0]; decide
  have ha10 : (before_aliens rr rc (returning_state 10)).g_aliens[0]? =
      some ⟨85, 699, 75, 60, 1, 2, 0, AlienState.S_DIVING, 213⟩ := by rw [hb10]; decide
  refine ⟨?_, ?_, ?_, ?_⟩
  · rw [update_game_head dive_x rr rc _ _ ha0,
      alien_step_returning dive_x _ _ _ (by decide) rfl (by decide) (Or.inr (by decide))]
  · rw [(update_game_formation dive_x rr rc _).1]
    decide
  · rw [update_game_head dive_x rr rc _ _ ha10,
      alien_step_returning dive_x _ _ _ (by decide) rfl (by decide) (Or.inr (by decide))]
  · rw [(update_game_formation dive_x rr rc _).1]
    decide

/-! ## At most one alien is at the player's height -/

/-- The loop of `main` leads from states of a game to states of a game. -/
theorem reachable_main_loop (dive_x : Int → Nat → Int) (inputs : List (Input × Nat × Nat))
    (run : Int) (s : GameState) (h : Reachable dive_x s) :
    Reachable dive_x (main_loop dive_x inputs run s).2 := by
  induction inputs generalizing run s with
  | nil => exact h
  | cons e rest ih =>
    simp only [main_loop]
    split_ifs
    · exact ih _ _ (Reachable.tick _ _ _ (Reachable.input _ _ _ h))
    · exact h

/-- C1 (as amended): from any state with `g_formation_x = 0` and
`g_formation_direction = 1`, after any number `n` of calls of `update_game`
the formation offset satisfies `-31 ≤ g_formation_x ≤ 31`. -/
theorem C1_formation_offset_within_31 (dive_x : Int → Nat → Int) (rnd : Nat → Nat × Nat)
    (n : Nat) (s : GameState) (h0 : s.g_formation_x = 0) (h1 : s.g_formation_direction = 1) :
    -31 ≤ (update_game_n dive_x rnd n s).g_formation_x ∧
    (update_game_n dive_x rnd n s).g_formation_x ≤ 31 := by
  have h : sway_inv (update_game_n dive_x rnd n s) :=
    sway_inv_update_game_n dive_x rnd n s (Or.inl ⟨h1, by omega, by omega⟩)
  rcases h with ⟨_, h2, h3⟩ | ⟨_, h2, h3⟩ <;> constructor <;> omega

/-- C1 witness: the bound at `level_start` after 100 calls. -/
theorem C1_formation_offset_within_31_witness :
    level_start.g_formation_x = 0 ∧ level_start.g_formation_direction = 1 ∧
    -31 ≤ (update_game_n (fun fx _ => fx) (fun _ => (0, 0)) 100 level_start).g_formation_x ∧
    (update_game_n (fun fx _ => fx) (fun _ => (0, 0)) 100 level_start).g_formation_x ≤ 31 :=
  ⟨rfl, rfl, C1_formation_offset_within_31 (fun fx _ => fx) (fun _ => (0, 0)) 100 level_start rfl rfl⟩

/-- C1 counterexample: after 31 calls of `update_game` from the state in which
`main` enters its loop (offset 0, direction 1) the formation offset is 31,
outside `[-30, 30]`.  (The offset does not depend on what `rand()` and `sinf`
return, see `offset_reaches_31`.) -/
theorem C1_offset_reaches_31 :
    level_start.g_formation_x = 0 ∧ level_start.g_formation_direction = 1 ∧
    (update_game_n no_sway (fun _ => (0, 0)) 31 level_start).g_formation_x = 31 ∧
    ¬ ((update_game_n no_sway (fun _ => (0, 0)) 31 level_start).g_formation_x ≤ 30) :=
  ⟨rfl, rfl, offset_reaches_31 no_sway (fun _ => (0, 0)),
    by rw [offset_reaches_31 no_sway (fun _ => (0, 0))]; decide⟩

/-- C4: `fire_bullet` on a 2-slot pool `[b0, b1]`.  With a free slot the
lowest-index free slot becomes an active bullet with rectangle
`(player.x + 14, player.y, 4, 12)` and the other slot is unchanged; with both
slots active the pool is unchanged and still holds 2 active bullets. -/
theorem C4_fire_bullet_two_slots (s : GameState) (b0 b1 : Bullet)
    (h : s.g_player_bullets = [b0, b1]) :
    (b0.active = 0 → (fire_bullet s).g_player_bullets =
      [⟨⟨s.g_player.rect.x + 14, s.g_player.rect.y, 4, 12⟩, 1⟩, b1]) ∧
    (b0.active ≠ 0 → b1.active = 0 → (fire_bullet s).g_player_bullets =
      [b0, ⟨⟨s.g_player.rect.x + 14, s.g_player.rect.y, 4, 12⟩, 1⟩]) ∧
    (b0.active ≠ 0 → b1.active ≠ 0 →
      (fire_bullet s).g_player_bullets = [b0, b1] ∧
      active_count (fire_bullet s).g_player_bullets = 2) := by
  have h14 : SPRITE_SIZE / 2 - 2 = 14 := by decide
  refine ⟨fun h0 => ?_, fun h0 h1 => ?_, fun h0 h1 => ?_⟩
  · simp [fire_bullet, fire_bullet_slots, h, h0, add_sub_assoc, h14]
  · simp [fire_bullet, fire_bullet_slots, h, h0, h1, add_sub_assoc, h14]
  · simp [fire_bullet, fire_bullet_slots, h, h0, h1, active_count]

/-- C4 witness: a third fire request on a full pool, and the pool it leaves. -/
theorem C4_fire_bullet_two_slots_witness :
    (fire_bullet (fire_bullet (fire_bullet level_start))).g_player_bullets =
      [⟨⟨298, 640, 4, 12⟩, 1⟩, ⟨⟨298, 640, 4, 12⟩, 1⟩] ∧
    active_count (fire_bullet (fire_bullet (fire_bullet level_start))).g_player_bullets = 2 :=
  (C4_fire_bullet_two_slots (fire_bullet (fire_bullet level_start))
    ⟨⟨298, 640, 4, 12⟩, 1⟩ ⟨⟨298, 640, 4, 12⟩, 1⟩ (by decide)).2.2 (by decide) (by decide)

theorem fire_bullet_slots_count (p : Player) (l : List Bullet)
    (hfree : ∃ b ∈ l, b.active = 0) :
    active_count (fire_bullet_slots p l) = active_count l + 1 := by
  induction l with
  | nil => simp at hfree
  | cons b bs ih =>
    by_cases hb : b.active = 0
    · simp [fire_bullet_slots, hb, active_count]
    · have hrest : ∃ c ∈ bs, c.active = 0 := by
        obtain ⟨c, hc, hc0⟩ := hfree
        rcases List.mem_cons.mp hc with rfl | hmem
        · exact absurd hc0 hb
        · exact ⟨c, hmem, hc0⟩
      have := ih hrest
      simp only [active_count, ne_eq, decide_not] at this ⊢
      simp [fire_bullet_slots, hb, this]

theorem u32_sub_of_le (a b : Nat) (hab : b ≤ a) (ha : a < 2 ^ 32) : u32_sub a b = a - b := by
  unfold u32_sub
  have hb : b < 2 ^ 32 := by omega
  rw [Nat.mod_eq_of_lt ha, Nat.mod_eq_of_lt hb]
  omega

theorem fire_bullet_slots_full (p : Player) (l : List Bullet)
    (hfull : ∀ b ∈ l, b.active ≠ 0) : fire_bullet_slots p l = l := by
  induction l with
  | nil => rfl
  | cons b bs ih =>
    have hb := hfull b (List.mem_cons_self b bs)
    simp [fire_bullet_slots, hb, ih (fun c hc => hfull c (List.mem_cons_of_mem b hc))]

/-- C5 (as amended): `handle_input` keeps in `last_shot` the clock value read
by the last fire request that passed the cooldown test, whether that request
created a bullet or was dropped on a full pool; a call without the fire key,
a request that fails the test, and `update_game` leave `last_shot` alone.
With the fire key held and a free bullet slot, `handle_input` sampled at clock
value `inp.ticks` (a `Uint32` not before `last_shot`) fires a bullet exactly
when MORE than 300 ms have elapsed since that value: with
`ticks - last_shot > 300` the pool gains one active bullet and `last_shot`
becomes the clock value read after firing, with `ticks - last_shot ≤ 300` (so
also at exactly 300) the pool and `last_shot` are unchanged. -/
theorem C5_cooldown_since_last_passing_request (inp : Input) (run : Int) (s : GameState)
    (hlast : s.last_shot ≤ inp.ticks) (hnow : inp.ticks < 2 ^ 32) :
    (inp.space = true → (∃ b ∈ s.g_player_bullets, b.active = 0) →
      300 < inp.ticks - s.last_shot →
      active_count (handle_input inp run s).2.g_player_bullets =
        active_count s.g_player_bullets + 1 ∧
      (handle_input inp run s).2.last_shot = inp.ticks_store % 2 ^ 32) ∧
    (inp.space = true → inp.ticks - s.last_shot ≤ 300 →
      (handle_input inp run s).2.g_player_bullets = s.g_player_bullets ∧
      (handle_input inp run s).2.last_shot = s.last_shot) ∧
    (inp.space = true → (∀ b ∈ s.g_player_bullets, b.active ≠ 0) →
      300 < inp.ticks - s.last_shot →
      (handle_input inp run s).2.g_player_bullets = s.g_player_bullets ∧
      (handle_input inp run s).2.last_shot = inp.ticks_store % 2 ^ 32) ∧
    (inp.space = false →
      (handle_input inp run s).2.g_player_bullets = s.g_player_bullets ∧
      (handle_input inp run s).2.last_shot = s.last_shot) ∧
    (∀ (dive_x : Int → Nat → Int) (rr rc : Nat),
      (update_game dive_x rr rc s).last_shot = s.last_shot) := by
  have hsub := u32_sub_of_le inp.ticks s.last_shot hlast hnow
  refine ⟨?_, ?_, ?_, ?_, ?_⟩
  · intro hspace hfree hgt
    have hc : u32_sub inp.ticks s.last_shot > 300 := by rw [hsub]; exact hgt
    simp only [handle_input, hspace, if_true, hc, fire_bullet]
    exact ⟨fire_bullet_slots_count _ _ hfree, trivial⟩
  · intro hspace hle
    have hc : ¬ u32_sub inp.ticks s.last_shot > 300 := by rw [hsub]; omega
    simp [handle_input, hspace, hc]
  · intro hspace hfull hgt
    have hc : u32_sub inp.ticks s.last_shot > 300 := by rw [hsub]; exact hgt
    simp only [handle_input, hspace, if_true, hc, fire_bullet]
    exact ⟨fire_bullet_slots_full _ _ hfull, trivial⟩
  · intro hspace
    simp [handle_input, hspace]
  · intro dive_x rr rc
    exact update_game_last_shot dive_x rr rc s

/-- C5 witness: 301 ms after a request that passed at 1000 ms the empty pool
gains a bullet and `last_shot` becomes 1302, the clock value read after firing. -/
theorem C5_cooldown_since_last_passing_request_witness :
    active_count (handle_input ⟨false, false, false, true, 1301, 1302⟩ 1
      { level_start with last_shot := 1000 }).2.g_player_bullets =
      active_count ({ level_start with last_shot := 1000 } : GameState).g_player_bullets + 1 ∧
    (handle_input ⟨false, false, false, true, 1301, 1302⟩ 1
      { level_start with last_shot := 1000 }).2.last_shot = 1302 :=
  (C5_cooldown_since_last_passing_request ⟨false, false, false, true, 1301, 1302⟩ 1
    { level_start with last_shot := 1000 } (by decide) (by decide)).1
    rfl ⟨⟨⟨0, 0, 0, 0⟩, 0⟩, by decide, rfl⟩ (by decide)

set_option maxRecDepth 1000000 in
/-- C5 counterexample, in two parts.  (1) The previous shot was at 1000 ms,
both slots are free, the fire key is held and the clock reads 1300 ms, so
300 ms (at least 300 ms) have elapsed; `handle_input` creates no bullet.
(2) From the start of the level with only the fire key held, bullets are
created at 301 ms and at 607 ms and at no other time in the first 39
iterations (the request of 913 ms passes the test on a full pool, is dropped
and restarts the cooldown).  In iteration 40 the clock reads 964 ms, 357 ms
after the previous shot, one slot is free again, and `handle_input` creates no
bullet. -/
theorem C5_no_shot_at_300_or_after_dropped_request :
    ((1300 : Nat) - ({ level_start with last_shot := 1000 } : GameState).last_shot ≥ 300 ∧
      active_count ({ level_start with last_shot := 1000 } : GameState).g_player_bullets = 0 ∧
      (handle_input ⟨false, false, false, true, 1300, 1300⟩ 1
        { level_start with last_shot := 1000 }).2.g_player_bullets =
        ({ level_start with last_shot := 1000 } : GameState).g_player_bullets) ∧
    (shot_times no_sway (hold_space_run 39) 1 level_start = [301, 607] ∧
      (964 : Nat) - 607 ≥ 300 ∧
      (main_loop no_sway (hold_space_run 39) 1 level_start).2.last_shot = 913 ∧
      active_count (main_loop no_sway (hold_space_run 39) 1 level_start).2.g_player_bullets = 1 ∧
      (handle_input ⟨false, false, false, true, 964, 964⟩ 1
        (main_loop no_sway (hold_space_run 39) 1 level_start).2).2.g_player_bullets =
        (main_loop no_sway (hold_space_run 39) 1 level_start).2.g_player_bullets) := by
  refine ⟨by decide, by decide, by decide, by decide, by decide, by decide⟩

/-- C2: in a state with exactly one active bullet (slot `i`) whose rectangle,
after its upward move of 10, intersects the rectangle of exactly one living
alien `A` (slot `j`), `update_game` leaves `A` with `alive = 0`, the bullet
with `active = 0`, and `g_score` increased by exactly `(A.type + 1) * 50`. -/
theorem C2_single_hit_kills_and_scores (dive_x : Int → Nat → Int) (rr rc : Nat) (s : GameState)
    (i j : Nat) (b : Bullet) (A : Alien)
    (hb : s.g_player_bullets[i]? = some b) (hact : b.active ≠ 0)
    (hone : ∀ k c, k ≠ i → s.g_player_bullets[k]? = some c → c.active = 0)
    (hA : s.g_aliens[j]? = some A) (hlive : A.alive ≠ 0)
    (hhit : SDL_HasIntersection (moved_rect b) (alien_rect A) = true)
    (honly : ∀ k a, k ≠ j → s.g_aliens[k]? = some a → a.alive ≠ 0 →
      SDL_HasIntersection (moved_rect b) (alien_rect a) = false) :
    (∃ A1, (update_game dive_x rr rc s).g_aliens[j]? = some A1 ∧ A1.alive = 0) ∧
    (∃ b1, (update_game dive_x rr rc s).g_player_bullets[i]? = some b1 ∧ b1.active = 0) ∧
    (update_game dive_x rr rc s).g_score = s.g_score + (A.type + 1) * 50 ∧
    (A.type = 0 → (update_game dive_x rr rc s).g_score = s.g_score + 50) ∧
    (A.type = 1 → (update_game dive_x rr rc s).g_score = s.g_score + 100) ∧
    (A.type = 2 → (update_game dive_x rr rc s).g_score = s.g_score + 150) := by
  have hub := update_bullets_single s.g_player_bullets i b s.g_aliens s.g_score hb hact hone
  have hva := fun active => bullet_vs_aliens_one_hit (moved_rect b) s.g_aliens j A active
    s.g_score hA hlive hhit honly
  rw [hva] at hub
  obtain ⟨hbul, hscore⟩ := update_game_bullets_score dive_x rr rc s
  have hi : i < s.g_player_bullets.length := (List.getElem?_eq_some.mp hb).1
  have hj : j < s.g_aliens.length := (List.getElem?_eq_some.mp hA).1
  have hsc : (update_game dive_x rr rc s).g_score = s.g_score + (A.type + 1) * 50 := by
    rw [hscore]
    simp [bullets_phase, hub]
  refine ⟨?_, ?_, hsc, ?_, ?_, ?_⟩
  · apply dead_at_update_game
    refine ⟨{ A with alive := 0 }, ?_, rfl⟩
    simp [bullets_phase, hub, hj]
  · rw [hbul]
    exact ⟨⟨moved_rect b, 0⟩, by simp [bullets_phase, hub, hi], rfl⟩
  · intro ht; rw [hsc, ht]; rfl
  · intro ht; rw [hsc, ht]; rfl
  · intro ht; rw [hsc, ht]; rfl

/-- C2 witness: the bullet of `one_bullet_state` meets only the drone of slot
`[4][0]` (list slot 40, type 0); the drone dies, the bullet is consumed and
the score rises by 50. -/
theorem C2_single_hit_kills_and_scores_witness :
    (∃ A1, (update_game no_sway 0 0 one_bullet_state).g_aliens[40]? = some A1 ∧ A1.alive = 0) ∧
    (∃ b1, (update_game no_sway 0 0 one_bullet_state).g_player_bullets[0]? = some b1 ∧
      b1.active = 0) ∧
    (update_game no_sway 0 0 one_bullet_state).g_score = one_bullet_state.g_score + 50 :=
  have h := C2_single_hit_kills_and_scores no_sway 0 0 one_bullet_state 0 40
    ⟨⟨93, 260, 4, 12⟩, 1⟩ ⟨75, 220, 75, 220, 1, 0, 0, AlienState.S_FORMATION, 0⟩
    (by decide) (by decide)
    (others_inactive_of_check _ 0 (by decide))
    (by decide) (by decide) (by decide)
    (others_missed_of_check _ _ 40 (by decide))
  ⟨h.1, h.2.1, h.2.2.2.1 rfl⟩

/-- C3 (the code at the failing input): in `double_hit_state` exactly one
bullet is active and its moved rectangle `(118, 130, 4, 12)` meets the living
flagships of slots 0 and 11.  One call of `update_game` kills both of them and
adds the value of both (150 + 150) to the score. -/
theorem C3_one_bullet_kills_two :
    ∀ (dive_x : Int → Nat → Int) (rr rc : Nat),
      active_count double_hit_state.g_player_bullets = 1 ∧
      double_hit_state.g_aliens[0]?.map Alien.alive = some 1 ∧
      double_hit_state.g_aliens[11]?.map Alien.alive = some 1 ∧
      (update_game dive_x rr rc double_hit_state).g_aliens[0]?.map Alien.alive = some 0 ∧
      (update_game dive_x rr rc double_hit_state).g_aliens[11]?.map Alien.alive = some 0 ∧
      (update_game dive_x rr rc double_hit_state).g_score = double_hit_state.g_score + 300 := by
  intro dive_x rr rc
  have h0 : dead_at (bullets_phase double_hit_state).g_aliens 0 :=
    ⟨⟨115, 102, 75, 60, 0, 2, 1, AlienState.S_DIVING, 14⟩, by decide, rfl⟩
  have h11 : dead_at (bullets_phase double_hit_state).g_aliens 11 :=
    ⟨⟨110, 100, 120, 100, 0, 2, 1, AlienState.S_FORMATION, 0⟩, by decide, rfl⟩
  obtain ⟨a0, ha0, hd0⟩ := dead_at_update_game dive_x rr rc _ 0 h0
  obtain ⟨a11, ha11, hd11⟩ := dead_at_update_game dive_x rr rc _ 11 h11
  refine ⟨by decide, by decide, by decide, ?_, ?_, ?_⟩
  · rw [ha0]; simp [hd0]
  · rw [ha11]; simp [hd11]
  · rw [(update_game_bullets_score dive_x rr rc double_hit_state).2]
    decide

/-- C6: with `g_lives = 1`, `g_game_over = 0` and exactly one living alien
whose rectangle (after this tick's motion) intersects the player's rectangle,
`update_game` leaves `g_lives = 0` and `g_game_over = 1`; the condition of the
loop of `main` is then false whatever `is_running` is, and the loop returns
the state as it is, without another call of `update_game`. -/
theorem C6_last_life_ends_game (dive_x : Int → Nat → Int) (rr rc : Nat) (s : GameState)
    (hl : s.g_lives = 1) (hg : s.g_game_over = 0)
    (hone : colliders dive_x (before_aliens rr rc s).g_formation_x s.g_player.rect
      (before_aliens rr rc s).g_aliens = 1) :
    loop_condition 1 s = true ∧
    (update_game dive_x rr rc s).g_lives = 0 ∧
    (update_game dive_x rr rc s).g_game_over = 1 ∧
    (∀ run, loop_condition run (update_game dive_x rr rc s) = false) ∧
    (∀ inputs run, main_loop dive_x inputs run (update_game dive_x rr rc s) =
      (run, update_game dive_x rr rc s)) := by
  obtain ⟨e1, e2, _⟩ := update_game_lives dive_x rr rc s
  have hl1 : (⟨s.g_player, s.g_lives, s.g_game_over⟩ : PassState).lives ≤ 1 := by
    simp only; omega
  have f1 := (update_aliens_fixed_player dive_x (before_aliens rr rc s).g_formation_x
    (before_aliens rr rc s).g_aliens ⟨s.g_player, s.g_lives, s.g_game_over⟩ (Or.inr hl1)).2
  have f2 := update_aliens_game_over dive_x (before_aliens rr rc s).g_formation_x
    (before_aliens rr rc s).g_aliens ⟨s.g_player, s.g_lives, s.g_game_over⟩ hl1
  simp only [hone] at f1 f2
  have g0 : (update_game dive_x rr rc s).g_lives = 0 := by rw [e1, f1, hl]; rfl
  have g1 : (update_game dive_x rr rc s).g_game_over = 1 := by rw [e2, f2]; rfl
  refine ⟨by simp [loop_condition, hg], g0, g1, ?_, ?_⟩
  · intro run
    simp [loop_condition, g1]
  · intro inputs run
    exact main_loop_game_over dive_x inputs run _ g1

/-- C6 witness: `last_life_state`, where the diving flagship of slot 0 reaches
the player on its next step. -/
theorem C6_last_life_ends_game_witness :
    last_life_state.g_lives = 1 ∧ last_life_state.g_game_over = 0 ∧
    (update_game no_sway 0 0 last_life_state).g_lives = 0 ∧
    (update_game no_sway 0 0 last_life_state).g_game_over = 1 ∧
    loop_condition 1 (update_game no_sway 0 0 last_life_state) = false :=
  have h := C6_last_life_ends_game no_sway 0 0 last_life_state (by decide) (by decide) (by decide)
  ⟨by decide, by decide, h.2.1, h.2.2.1, h.2.2.2.1 1⟩

set_option maxRecDepth 100000 in
/-- A hand-built state that no game reaches (`two_colliders_state`: two
formation aliens placed at the player's height, player at `x = 79`, three
lives) shows why the statement above is about states of a game: two aliens
meet the player's rectangle as it stands when the pass begins, the first
collision moves the player to `x = 284`, out of reach of the second, and one
life is lost. -/
theorem two_colliders_one_life :
    two_colliders_state.g_lives = 3 ∧
    colliders no_sway (before_aliens 0 0 two_colliders_state).g_formation_x
      two_colliders_state.g_player.rect (before_aliens 0 0 two_colliders_state).g_aliens = 2 ∧
    (update_game no_sway 0 0 two_colliders_state).g_lives = 2 :=
  ⟨by decide, by decide, by decide⟩

/-- C8: a living alien in state DIVING at height `y` that no bullet kills in
this tick leaves `update_game` at `y + 3`, still DIVING, when `y + 3 ≤ 700`,
and at `formation_y` in state FORMATION when `y + 3 > 700`. -/
theorem C8_diving_alien_descends_or_returns (dive_x : Int → Nat → Int) (rr rc : Nat)
    (s : GameState) (j : Nat) (a : Alien)
    (ha : s.g_aliens[j]? = some a) (hlive : a.alive ≠ 0) (hdive : a.state = AlienState.S_DIVING)
    (hmiss : ∀ b, (bullets_phase s).g_aliens[j]? = some b → b.alive ≠ 0) :
    ∃ a1, (update_game dive_x rr rc s).g_aliens[j]? = some a1 ∧
      (a.y + 3 ≤ 700 → a1.y = a.y + 3 ∧ a.y ≤ a1.y ∧ a1.state = AlienState.S_DIVING) ∧
      (a.y + 3 > 700 → a1.y = a.formation_y ∧ a1.state = AlienState.S_FORMATION) := by
  obtain ⟨b1, hb1, r1⟩ := update_bullets_getElem? s.g_player_bullets s.g_aliens s.g_score j a ha
  have hb1' : (bullets_phase s).g_aliens[j]? = some b1 := hb1
  have e1 : b1 = a := by
    rcases r1 with h | h
    · exact h
    · exact absurd (by rw [h]) (hmiss b1 hb1')
  obtain ⟨b2, hb2, r2⟩ := anim_phase_getElem? (bullets_phase s) j b1 hb1'
  have hb2' : (formation_phase (anim_phase (bullets_phase s))).g_aliens[j]? = some b2 := hb2
  obtain ⟨b3, hb3, r3⟩ := dive_phase_getElem? rr rc _ j b2 hb2'
  have hs2 : b2.state = AlienState.S_DIVING := by rw [r2, e1]; exact hdive
  have e3 : b3 = b2 := by
    rcases r3 with h | ⟨h, _⟩
    · exact h
    · rw [hs2] at h; exact absurd h (by decide)
  obtain ⟨st1, hfin⟩ := update_aliens_getElem? dive_x (before_aliens rr rc s).g_formation_x
    (before_aliens rr rc s).g_aliens ⟨(before_aliens rr rc s).g_player,
      (before_aliens rr rc s).g_lives, (before_aliens rr rc s).g_game_over⟩ j b3 hb3
  have hl3 : b3.alive ≠ 0 := by rw [e3, r2, e1]; exact hlive
  have hs3 : b3.state = AlienState.S_DIVING := by rw [e3]; exact hs2
  have hy3 : b3.y = a.y := by rw [e3, r2, e1]
  have hf3 : b3.formation_y = a.formation_y := by rw [e3, r2, e1]
  obtain ⟨q1, q2⟩ := alien_step_y_state dive_x (before_aliens rr rc s).g_formation_x b3 st1 hl3
  obtain ⟨m1, m2⟩ := move_alien_diving dive_x (before_aliens rr rc s).g_formation_x b3 hs3
  rw [hy3] at m1 m2
  rw [hf3] at m2
  refine ⟨_, hfin, ?_, ?_⟩
  · intro hy
    rw [q1, q2]
    exact ⟨(m1 hy).1, by rw [(m1 hy).1]; omega, (m1 hy).2⟩
  · intro hy
    rw [q1, q2]
    exact m2 hy

/-- C9 (as amended): after a call of `update_game`, every living alien that
was in state FORMATION when the last loop of that call moved it (so not one
that returned from a dive in that very call) is in state FORMATION with `x`
equal to its `formation_x` plus the current `g_formation_x`, and the rectangle
`render_game` draws for it is `(formation_x + g_formation_x, y, 32, 32)`. -/
theorem C9_formation_alien_tracks_offset (dive_x : Int → Nat → Int) (rr rc : Nat)
    (s : GameState) (j : Nat) (a0 a1 : Alien)
    (h0 : (before_aliens rr rc s).g_aliens[j]? = some a0)
    (hform : a0.state = AlienState.S_FORMATION)
    (h1 : (update_game dive_x rr rc s).g_aliens[j]? = some a1) (hlive : a1.alive ≠ 0) :
    a1.state = AlienState.S_FORMATION ∧
    a1.x = a1.formation_x + (update_game dive_x rr rc s).g_formation_x ∧
    alien_rect a1 =
      ⟨a1.formation_x + (update_game dive_x rr rc s).g_formation_x, a1.y, 32, 32⟩ ∧
    alien_rect a1 ∈ render_aliens (update_game dive_x rr rc s) := by
  obtain ⟨st1, hfin⟩ := update_aliens_getElem? dive_x (before_aliens rr rc s).g_formation_x
    (before_aliens rr rc s).g_aliens ⟨(before_aliens rr rc s).g_player,
      (before_aliens rr rc s).g_lives, (before_aliens rr rc s).g_game_over⟩ j a0 h0
  have h1' : (update_aliens dive_x (before_aliens rr rc s).g_formation_x
      (before_aliens rr rc s).g_aliens ⟨(before_aliens rr rc s).g_player,
      (before_aliens rr rc s).g_lives, (before_aliens rr rc s).g_game_over⟩).1[j]? = some a1 := h1
  rw [hfin] at h1'
  simp only [Option.some.injEq] at h1'
  have hl0 : a0.alive ≠ 0 := by
    intro hz
    rw [alien_step_dead dive_x _ a0 st1 hz] at h1'
    exact hlive (by rw [← h1']; exact hz)
  have hm : a1 = move_alien dive_x (before_aliens rr rc s).g_formation_x a0 := by
    rcases alien_step_living dive_x (before_aliens rr rc s).g_formation_x a0 st1 hl0 with h | h
    · rw [← h1', h]
    · exact absurd (by rw [← h1', h]) hlive
  have hg : (update_game dive_x rr rc s).g_formation_x = (before_aliens rr rc s).g_formation_x :=
    rfl
  have hx : a1.x = a1.formation_x + (update_game dive_x rr rc s).g_formation_x := by
    rw [hg, hm]
    simp [move_alien, hform]
  refine ⟨by rw [hm]; simp [move_alien, hform], hx, ?_, ?_⟩
  · simp only [alien_rect, hx, SPRITE_SIZE]
  · simp only [render_aliens, List.mem_map, List.mem_filter]
    exact ⟨a1, ⟨List.getElem?_mem h1, by simpa using hlive⟩, rfl⟩

/-- C8 witness: the diver of `returning_state 0` is at `y = 699`; its step takes
it past 700, so it leaves the call at its `formation_y = 60` in formation. -/
theorem C8_diving_alien_descends_or_returns_witness :
    ∃ a1, (update_game no_sway 0 0 (returning_state 0)).g_aliens[0]? = some a1 ∧
      a1.y = 60 ∧ a1.state = AlienState.S_FORMATION :=
  (C8_diving_alien_descends_or_returns no_sway 0 0 (returning_state 0) 0
    ⟨85, 699, 75, 60, 1, 2, 0, AlienState.S_DIVING, 213⟩ (by decide) (by decide) (by decide)
    (fun b hb => by
      have h : (bullets_phase (returning_state 0)).g_aliens[0]? =
          some ⟨85, 699, 75, 60, 1, 2, 0, AlienState.S_DIVING, 213⟩ := by decide
      rw [h] at hb
      cases hb
      decide)).imp
    fun _ h => ⟨h.1, h.2.2 (by decide)⟩

/-- C9 witness: the flagship of slot 0 after the first call of the level:
formation_x 75, offset 1, drawn at x = 76. -/
theorem C9_formation_alien_tracks_offset_witness :
    (update_game no_sway 0 0 level_start).g_aliens[0]? =
      some ⟨76, 60, 75, 60, 1, 2, 0, AlienState.S_FORMATION, 0⟩ ∧
    (update_game no_sway 0 0 level_start).g_formation_x = 1 ∧
    (⟨76, 60, 32, 32⟩ : SDL_Rect) ∈ render_aliens (update_game no_sway 0 0 level_start) :=
  have h := C9_formation_alien_tracks_offset no_sway 0 0 level_start 0
    ⟨75, 60, 75, 60, 1, 2, 0, AlienState.S_FORMATION, 0⟩
    ⟨76, 60, 75, 60, 1, 2, 0, AlienState.S_FORMATION, 0⟩
    (by decide) rfl (by decide) (by decide)
  ⟨by decide, by decide, h.2.2.2⟩

/-- C9 counterexample: the diver of slot 0 in `returning_state 0` and in
`returning_state 10` passes the bottom of the screen in the call and leaves it
alive, in state FORMATION, with the `x` of the dive law, which is the same in
both states, while `formation_x + g_formation_x` is `75 + 1` in the first and
`75 + 11` in the second.  So for no dive function does the claim hold in both
states. -/
theorem C9_returning_diver_keeps_dive_x :
    ¬ ∃ dive_x : Int → Nat → Int,
      (∀ a1, (update_game dive_x 0 0 (returning_state 0)).g_aliens[0]? = some a1 →
        a1.alive ≠ 0 → a1.state = AlienState.S_FORMATION →
        a1.x = a1.formation_x + (update_game dive_x 0 0 (returning_state 0)).g_formation_x) ∧
      (∀ a1, (update_game dive_x 0 0 (returning_state 10)).g_aliens[0]? = some a1 →
        a1.alive ≠ 0 → a1.state = AlienState.S_FORMATION →
        a1.x = a1.formation_x + (update_game dive_x 0 0 (returning_state 10)).g_formation_x) := by
  rintro ⟨dive_x, hA, hB⟩
  obtain ⟨e0, g0, e10, g10⟩ := returning_diver_after dive_x 0 0
  have h1 := hA _ e0 (by simp) rfl
  have h2 := hB _ e10 (by simp) rfl
  rw [g0] at h1
  rw [g10] at h2
  simp only at h1 h2
  omega

set_option maxRecDepth 1000000 in
/-- C10 (the code at the failing input): from the start of the level, with the
left arrow key held during 57 iterations of the loop of `main`, the player's
rectangle ends at `x = -1`, left of the screen. -/
theorem C10_player_leaves_screen :
    ∀ (dive_x : Int → Nat → Int),
      (main_loop dive_x (List.replicate 57 (hold_left, 0, 0)) 1 level_start).2.g_player.rect.x
        = -1 := by
  intro dive_x
  rw [main_loop_quiet dive_x _ _ _ (by decide)]
  decide

end Galaxian
